import Mathlib

/-!
Shallow embedding of the payment-reconciliation core of the choizze backend
(`server.js` and `check_payeer.js`).

The MongoDB collections are modelled as Lean lists of records; a mongoose
`save()` on a fetched document is modelled as replacing, by `_id`, the stored
record with the mutated copy; `findOne(filter)` is modelled as `List.find?`
with the filter as a boolean predicate (MongoDB returns the first document in
natural collection order when no sort is given).  JavaScript numbers that the
code only adds, multiplies by 100 and compares are modelled as `Int`; all
claims under study involve integral amounts only.  Each request handler or
job is a pure function from the collection state (plus the inbound payload
and the responses of external services, passed as explicit arguments) to the
new collection state and the HTTP response code.
-/

namespace Choizze

/-- Status values of a ledger record: the `status` field of the
`transactionSchema` (`server.js` line 159, enum `pending`/`completed`/`failed`)
and of the `PaymentSchema` (default `'pending'`). -/
inductive TxStatus where
  | pending
  | completed
  | failed
  deriving DecidableEq, Repr

/-- JavaScript `String.prototype.trim`: strip leading and trailing whitespace
(used as `row.Description.trim()` in `check_payeer.js` line 67). -/
def jsTrim (s : String) : String :=
  ⟨((s.data.dropWhile Char.isWhitespace).reverse.dropWhile Char.isWhitespace).reverse⟩

/-- A document of the `Transaction` collection (`server.js` lines 152-162).
`id` stands for the MongoDB `_id`; `transaction_id` is the nullable external
reference slot, absent until some channel stores it. -/
structure Transaction where
  id : Nat
  user_id : Nat
  amount : Int
  currency : String
  payment_method : String
  verification_code : String
  status : TxStatus
  transaction_id : Option String
  deriving DecidableEq, Repr

/-- The fields of a `UserStats` document that the payment code touches
(`server.js` lines 125-135): the owner and the point balance. -/
structure UserStats where
  user_id : Nat
  points : Int
  deriving DecidableEq, Repr

/-- The server-side store state shared by the poll and webhook channels. -/
structure ServerState where
  transactions : List Transaction
  stats : List UserStats
  deriving DecidableEq, Repr

/-- Mongoose `save()` on a fetched `Transaction` document: the stored record
with the same `_id` is replaced by the mutated copy. -/
def saveTransaction (l : List Transaction) (t' : Transaction) : List Transaction :=
  l.map fun t => if t.id = t'.id then t' else t

/-- Mongoose `save()` on a fetched `UserStats` document (keyed by `user_id`,
which is how the code always looks it up). -/
def saveStats (l : List UserStats) (s' : UserStats) : List UserStats :=
  l.map fun s => if s.user_id = s'.user_id then s' else s

/-- The crediting step `const userStats = await UserStats.findOne(...);
if (userStats) { userStats.points += pts; await userStats.save(); }` shared
by `checkUsdtTransactions` (lines 533-537) and the FaucetPay callback
(lines 645-650).  When no stats document exists, nothing is credited. -/
def creditPoints (stats : List UserStats) (uid : Nat) (pts : Int) : List UserStats :=
  match stats.find? (fun s => decide (s.user_id = uid)) with
  | none => stats
  | some s => saveStats stats { s with points := s.points + pts }

/-- Lookup of a transaction by `_id` (used only in theorem statements). -/
def txById (l : List Transaction) (i : Nat) : Option Transaction :=
  l.find? fun t => decide (t.id = i)

/-- Point balance of a user, `none` when no stats document exists
(used only in theorem statements). -/
def pointsOf (l : List UserStats) (u : Nat) : Option Int :=
  (l.find? fun s => decide (s.user_id = u)).map UserStats.points

/-- The legal status evolution of one record across one operation: unchanged,
or one of the two edges out of `pending`. -/
def statusStep (old new : TxStatus) : Prop :=
  old = new ∨ (old = TxStatus.pending ∧ (new = TxStatus.completed ∨ new = TxStatus.failed))

/-- One TRC-20 transfer as returned by the TronGrid query in
`checkUsdtTransactions` (`server.js` line 518): its on-chain hash
`transaction_id` and the `token_info.symbol` the code filters on. -/
structure Trc20Transfer where
  transaction_id : String
  symbol : String
  deriving DecidableEq, Repr

/-- The `Transaction.findOne` filter of `checkUsdtTransactions`
(`server.js` lines 525-529): `verification_code` equal to the transfer hash,
status `pending`, payment method `BESTCHANGE`. -/
def bestchangePending (txid : String) (t : Transaction) : Bool :=
  decide (t.verification_code = txid ∧ t.status = TxStatus.pending ∧
    t.payment_method = "BESTCHANGE")

/-- The body of the `for (const tx of data.data)` loop of
`checkUsdtTransactions` (`server.js` lines 523-539) for a single transfer:
skip non-USDT transfers; otherwise find a pending BESTCHANGE transaction whose
`verification_code` equals the transfer hash, set its status to `completed`
(nothing else on the transaction is mutated) and credit `amount * 100` points
to its owner. -/
def settleBestchangeOne (st : ServerState) (tx : Trc20Transfer) : ServerState :=
  if tx.symbol ≠ "USDT" then st
  else
    match st.transactions.find? (bestchangePending tx.transaction_id) with
    | none => st
    | some t =>
      { transactions := saveTransaction st.transactions { t with status := TxStatus.completed },
        stats := creditPoints st.stats t.user_id (t.amount * 100) }

/-- One poll cycle of `checkUsdtTransactions` (`server.js` lines 516-544)
applied to the fetched transfer list. -/
def checkUsdtTransactions (st : ServerState) (txs : List Trc20Transfer) : ServerState :=
  txs.foldl settleBestchangeOne st

/-- The request body destructured by the `/faucetpay/callback` handler
(`server.js` line 606). -/
structure FaucetpayBody where
  token : String
  merchant_username : String
  amount1 : String
  currency1 : String
  amount2 : String
  currency2 : String
  custom : String
  deriving DecidableEq, Repr

/-- The JSON answer of the server-to-server
`GET faucetpay.io/merchant/get-payment/{token}` verification call
(`server.js` lines 612-613).  `amount1` is modelled after the
`parseFloat(paymentInfo.amount1)` cast on line 636. -/
structure PaymentInfo where
  valid : Bool
  currency1 : String
  currency2 : String
  amount1 : Int
  transaction_id : String
  deriving DecidableEq, Repr

/-- The `Transaction.findOne` filter of the FaucetPay callback
(`server.js` lines 625-629). -/
def faucetpayPending (custom : String) (t : Transaction) : Bool :=
  decide (t.verification_code = custom ∧ t.status = TxStatus.pending ∧
    t.payment_method = "FAUCETPAY")

/-- The `/faucetpay/callback` handler (`server.js` lines 604-657).
`getPayment` is the external gateway oracle answering the server-to-server
verification request for a token.  Returns the HTTP status code of the
response together with the new store state.  Checks, in source order:
merchant identity (403), token validity (400), currency pair (400), pending
transaction with the given `custom` correlation code (404), then the
gateway-verified amount against the transaction's requested amount (400).
On success the transaction is completed, the gateway's `transaction_id` is
stored, and `amount * 100` points are credited. -/
def faucetpayCallback (merchantUsername : String) (getPayment : String → PaymentInfo)
    (st : ServerState) (body : FaucetpayBody) : Nat × ServerState :=
  if body.merchant_username ≠ merchantUsername then (403, st)
  else if (getPayment body.token).valid = false then (400, st)
  else if (getPayment body.token).currency1 ≠ "USD" ∨ (getPayment body.token).currency2 ≠ "USDT" then
    (400, st)
  else
    match st.transactions.find? (faucetpayPending body.custom) with
    | none => (404, st)
    | some t =>
      if (getPayment body.token).amount1 ≠ t.amount then (400, st)
      else
        (200,
          { transactions := saveTransaction st.transactions
              { t with status := TxStatus.completed,
                       transaction_id := some (getPayment body.token).transaction_id },
            stats := creditPoints st.stats t.user_id (t.amount * 100) })

/-- A document of the `Payment` collection used by the PAYEER flow
(`check_payeer.js` lines 14-23 and `server.js` lines 17-24).  The server-side
schema has neither `userNickname` nor `commentCode`, so documents created by
the webhook carry `none` there. -/
structure Payment where
  id : Nat
  payeerId : Option String
  userNickname : Option String
  amount : Int
  currency : String
  status : TxStatus
  protectionCode : String
  commentCode : Option String
  deriving DecidableEq, Repr

/-- Mongoose `save()` on a fetched `Payment` document. -/
def savePayment (l : List Payment) (p' : Payment) : List Payment :=
  l.map fun p => if p.id = p'.id then p' else p

/-- Lookup of a payment by `_id` (used only in theorem statements). -/
def paymentById (l : List Payment) (i : Nat) : Option Payment :=
  l.find? fun p => decide (p.id = i)

/-- One parsed row of the exported CSV as `csv-parser` hands it to the `data`
handler (`check_payeer.js` lines 65-71): the `Amount` column, the column whose
header is the empty string (holding the currency, accessed as `row['']`), the
`Description` memo column and the provider's `ID` column.  A missing field is
modelled as the empty string; JavaScript treats both as falsy in the
`row.Description &&` guard, and neither can pass the `trim()` comparison, so
that identification is observably faithful. -/
structure CsvRow where
  Amount : String
  currencyColumn : String
  Description : String
  ID : String
  deriving DecidableEq, Repr

/-- The row filter of `findPaymentInCSV` (`check_payeer.js` line 67):
`row.Amount === '1.00' && row[''] === 'RUB' && row.Description &&
row.Description.trim() === commentCode`.  The comment code is an
`Option String` because documents created by the server webhook have no
`commentCode` field, and in JavaScript `string === undefined` is false. -/
def rowMatches (commentCode : Option String) (row : CsvRow) : Bool :=
  decide (row.Amount = "1.00" ∧ row.currencyColumn = "RUB" ∧ row.Description ≠ "" ∧
    some (jsTrim row.Description) = commentCode)

/-- The `data`/`end` stream protocol of `findPaymentInCSV`
(`check_payeer.js` lines 61-78): every matching row overwrites `found`, so the
last match in file order wins; no match resolves to `null`. -/
def lastMatch (commentCode : Option String) (rows : List CsvRow) : Option CsvRow :=
  rows.foldl (fun found row => if rowMatches commentCode row then some row else found) none

/-- One file of the downloads directory: its name, its modification time
(`fs.statSync(...).mtime.getTime()`, an integer number of milliseconds) and
its parsed CSV rows. -/
structure FileEntry where
  name : String
  mtime : Int
  rows : List CsvRow
  deriving DecidableEq, Repr

/-- The ordering realised by the comparator `(a, b) => b.time - a.time` of
`check_payeer.js` line 58: descending modification time. -/
def fileLe (a b : FileEntry) : Prop := b.mtime ≤ a.mtime

instance : DecidableRel fileLe := fun a b => inferInstanceAs (Decidable (b.mtime ≤ a.mtime))

instance : IsTotal FileEntry fileLe := ⟨fun a b => Int.le_total b.mtime a.mtime⟩

instance : IsTrans FileEntry fileLe := ⟨fun _ _ _ h1 h2 => le_trans h2 h1⟩

/-- The selection `files.map(...).sort((a, b) => b.time - a.time)[0]`
(`check_payeer.js` lines 55-58): ECMAScript `Array.prototype.sort` is a stable
sort ordered by the comparator, modelled as a stable insertion sort under
`fileLe`; the selected file is the head of the sorted list. -/
def newestFile (files : List FileEntry) : Option FileEntry :=
  (List.insertionSort fileLe files).head?

/-- The scan `findPaymentInCSV` (`check_payeer.js` lines 48-81): an empty
downloads directory logs an error and returns `null` (no exception);
otherwise the most recently modified file is parsed and scanned with the row
filter. -/
def findPaymentInCSV (downloads : List FileEntry) (commentCode : Option String) :
    Option CsvRow :=
  if downloads.isEmpty then none
  else
    match newestFile downloads with
    | none => none
    | some f => lastMatch commentCode f.rows

/-- State touched by one `check_payeer.js` run: the `Payment` collection, the
downloads directory, and the `UserStats` collection — included to record that
the script defines no stats model and never touches a point balance. -/
structure PayeerJobState where
  payments : List Payment
  downloads : List FileEntry
  stats : List UserStats
  deriving DecidableEq, Repr

/-- The `Payment.findOne` filter of `checkPayment`
(`check_payeer.js` line 97): only `{ status: 'pending' }`. -/
def pendingPayment (p : Payment) : Bool :=
  decide (p.status = TxStatus.pending)

/-- The store-visible effect of one `checkPayment` run
(`check_payeer.js` lines 83-155) in which the browser steps succeed and a
fresh export is present in `st.downloads`.  `argOrderId` is the command-line
argument the server passes when spawning `node check_payeer.js m_orderid`
(`server.js` line 903); the script never reads `process.argv`, so the
parameter is unused.  The run selects the first pending payment in collection
order (`findOne({ status: 'pending' })`, no sort), scans the newest export
file for its comment code, and marks it `completed` (storing the row's `ID`
into `payeerId`) on a match, `failed` otherwise.  No file is ever deleted
from the downloads directory and no balance is touched. -/
def checkPayment (argOrderId : Option String) (st : PayeerJobState) : PayeerJobState :=
  match st.payments.find? pendingPayment with
  | none => st
  | some p =>
    match findPaymentInCSV st.downloads p.commentCode with
    | some row =>
      let p2 : Payment := { p with status := TxStatus.completed, payeerId := some row.ID }
      { st with payments := savePayment st.payments p2 }
    | none =>
      let p2 : Payment := { p with status := TxStatus.failed }
      { st with payments := savePayment st.payments p2 }

/-- The request body destructured by the `/payeer_webhook` handler
(`server.js` line 887), with `m_status` read from `req.body.m_status`.
`m_amount` is modelled after the mongoose `Number` cast. -/
structure PayeerWebhookBody where
  m_orderid : String
  m_amount : Int
  m_curr : String
  m_desc : String
  m_status : String
  deriving DecidableEq, Repr

/-- The `/payeer_webhook` handler (`server.js` lines 886-923).  `freshId`
stands for the `_id` MongoDB assigns to the inserted document.  The result is
the HTTP status code, the new `Payment` collection, and the command-line
argument of the spawned `check_payeer.js` process (`none` when nothing is
spawned); the response is produced at spawn time, independent of anything the
spawned process later does.  When `m_status` is `'success'` a new document is
saved with default status `pending` — no signature verification, no lookup of
existing documents — and `200 OK` is returned; otherwise nothing is stored and
the response is `400`. -/
def payeerWebhook (freshId : Nat) (payments : List Payment) (body : PayeerWebhookBody) :
    Nat × List Payment × Option String :=
  if body.m_status = "success" then
    (200,
      payments ++ [{ id := freshId, payeerId := some body.m_orderid, userNickname := none,
                     amount := body.m_amount, currency := body.m_curr,
                     status := TxStatus.pending, protectionCode := body.m_desc,
                     commentCode := none }],
      some body.m_orderid)
  else (400, payments, none)

/-- The shared-entry view of one settlement attempt, for the interleaving
analysis of the two server channels.  Both settlement sites are structured as
`await Model.findOne({ ..., status: 'pending' })` followed by
`doc.status = 'completed'; await doc.save()` plus the balance credit
(`server.js` lines 525-539 and 625-650).  The two awaits are distinct event
loop turns, so another request or poll cycle can run between them.  The state
is the contested entry's status and its owner's balance. -/
structure RaceState where
  status : TxStatus
  points : Int
  deriving DecidableEq, Repr

/-- The progress of one settlement attempt: `phase` 0 before the `findOne`,
1 between `findOne` and `save`, 2 after; `found` records whether the
`findOne` returned the document (that is, whether the entry was still
`pending` when the attempt read it). -/
structure SettleAttempt where
  phase : Nat
  found : Bool
  deriving DecidableEq, Repr

/-- The fresh attempt before its `findOne` has run. -/
def initAttempt : SettleAttempt := { phase := 0, found := false }

/-- One event-loop turn of a settlement attempt.  Phase 0 performs the
`findOne`: it records whether the entry is `pending`.  Phase 1 performs the
mutation exactly as written in the source: if the document was found, the
attempt unconditionally sets `completed` and credits the balance — there is
no re-check of the status at write time and no conditional update. -/
def stepAttempt (credit : Int) (a : SettleAttempt) (s : RaceState) :
    SettleAttempt × RaceState :=
  match a.phase with
  | 0 => ({ phase := 1, found := decide (s.status = TxStatus.pending) }, s)
  | 1 => ({ a with phase := 2 },
          if a.found then { status := TxStatus.completed, points := s.points + credit } else s)
  | _ => (a, s)

/-- Run two settlement attempts `a` and `b` under a schedule: `true` gives the
next event-loop turn to `a`, `false` to `b`. -/
def runSchedule (credit : Int) :
    List Bool → SettleAttempt × SettleAttempt × RaceState →
      SettleAttempt × SettleAttempt × RaceState
  | [], cfg => cfg
  | pick :: rest, (a, b, s) =>
    if pick then
      let (a2, s2) := stepAttempt credit a s
      runSchedule credit rest (a2, b, s2)
    else
      let (b2, s2) := stepAttempt credit b s
      runSchedule credit rest (a, b2, s2)

/-- The interleaved schedule in which both attempts run their `findOne`
before either runs its `save`: read A, read B, write A, write B. -/
def racedSchedule : List Bool := [true, false, true, false]

/-- The serialized schedule: attempt A runs to completion, then attempt B. -/
def serialSchedule : List Bool := [true, true, false, false]

/-- Sample pending BESTCHANGE transaction (concrete data for witnesses). -/
def sampleTx : Transaction :=
  { id := 1, user_id := 7, amount := 10, currency := "USDT", payment_method := "BESTCHANGE",
    verification_code := "tx1", status := TxStatus.pending, transaction_id := none }

/-- Sample server state holding `sampleTx` and its owner's stats. -/
def sampleState : ServerState :=
  { transactions := [sampleTx], stats := [{ user_id := 7, points := 0 }] }

/-- Sample USDT transfer whose hash equals `sampleTx`'s verification code. -/
def sampleTransfer : Trc20Transfer := { transaction_id := "tx1", symbol := "USDT" }

/-- Sample pending FAUCETPAY transaction, requested amount 10. -/
def fpTx : Transaction :=
  { id := 2, user_id := 9, amount := 10, currency := "USDT", payment_method := "FAUCETPAY",
    verification_code := "c1", status := TxStatus.pending, transaction_id := none }

/-- Sample server state holding `fpTx` and its owner's stats. -/
def fpState : ServerState :=
  { transactions := [fpTx], stats := [{ user_id := 9, points := 0 }] }

/-- Sample webhook body whose own `amount1` field declares 9 while the
transaction's requested amount is 10. -/
def fpBody : FaucetpayBody :=
  { token := "tok", merchant_username := "merch", amount1 := "9", currency1 := "USD",
    amount2 := "10", currency2 := "USDT", custom := "c1" }

/-- Gateway oracle reporting a valid payment of 10 USD/USDT for every token. -/
def fpGetPayment : String → PaymentInfo :=
  fun _ => { valid := true, currency1 := "USD", currency2 := "USDT", amount1 := 10,
             transaction_id := "fp1" }

/-- Gateway oracle reporting a valid payment of 9 USD/USDT for every token. -/
def fpGetPayment9 : String → PaymentInfo :=
  fun _ => { valid := true, currency1 := "USD", currency2 := "USDT", amount1 := 9,
             transaction_id := "fp1" }

/-- `fpTx` after settlement: completed with the gateway reference stored. -/
def fpTxDone : Transaction :=
  { fpTx with status := TxStatus.completed, transaction_id := some "fp1" }

/-- Server state in which the FAUCETPAY transaction is already completed. -/
def fpStateDone : ServerState :=
  { transactions := [fpTxDone], stats := [{ user_id := 9, points := 1000 }] }

/-- Sample CSV row: probe amount 1.00, currency RUB, memo ` C ` with
incidental whitespace, provider reference `op777`. -/
def csvRowC : CsvRow :=
  { Amount := "1.00", currencyColumn := "RUB", Description := " C ", ID := "op777" }

/-- Sample export file containing `csvRowC`. -/
def exportFile : FileEntry := { name := "export.csv", mtime := 100, rows := [csvRowC] }

/-- Sample pending payment with comment code `C`. -/
def samplePayment : Payment :=
  { id := 1, payeerId := some "A", userNickname := some "nick", amount := 1,
    currency := "RUB", status := TxStatus.pending, protectionCode := "pc",
    commentCode := some "C" }

/-- Job state for a run that finds a match: one pending payment, one export
file whose row matches it. -/
def payJobState : PayeerJobState :=
  { payments := [samplePayment], downloads := [exportFile], stats := [] }

/-- A second pending payment whose `payeerId` is the order id `B`. -/
def paymentB : Payment :=
  { id := 2, payeerId := some "B", userNickname := some "nick2", amount := 1,
    currency := "RUB", status := TxStatus.pending, protectionCode := "pc2",
    commentCode := some "D" }

/-- Job state with two pending payments and an empty downloads directory. -/
def twoPendingState : PayeerJobState :=
  { payments := [samplePayment, paymentB], downloads := [], stats := [] }

/-- Three export files with pairwise distinct modification times. -/
def threeFiles : List FileEntry :=
  [{ name := "a", mtime := 1, rows := [] }, { name := "b", mtime := 5, rows := [] },
   { name := "c", mtime := 3, rows := [] }]

/-- `find?` commutes with a map that does not change the predicate's value. -/
theorem find?_map_pres {α : Type} (p : α → Bool) (f : α → α) (l : List α)
    (hf : ∀ a, p (f a) = p a) : (l.map f).find? p = (l.find? p).map f := by
  induction l with
  | nil => rfl
  | cons a l ih =>
    simp only [List.map_cons, List.find?_cons, hf a]
    cases hpa : p a
    · exact ih
    · rfl

/-- In a list whose images under a key function are pairwise distinct,
`find?` by the key of a member returns that member. -/
theorem find?_key_eq_some {α κ : Type} [DecidableEq κ] (g : α → κ) (l : List α) (a : α)
    (hnd : (l.map g).Nodup) (ha : a ∈ l) : l.find? (fun x => decide (g x = g a)) = some a := by
  induction l with
  | nil => cases ha
  | cons b l ih =>
    simp only [List.map_cons, List.nodup_cons] at hnd
    rcases List.mem_cons.mp ha with rfl | hmem
    · simp [List.find?_cons]
    · have hne : g b ≠ g a := fun he => hnd.1 (he ▸ List.mem_map_of_mem g hmem)
      simp only [List.find?_cons]
      rw [decide_eq_false hne]
      exact ih hnd.2 hmem

/-- Lookup by id after a save: the looked-up record is the saved copy when the
ids agree, unchanged otherwise. -/
theorem txById_save (l : List Transaction) (t' : Transaction) (i : Nat) :
    txById (saveTransaction l t') i =
      (txById l i).map fun t => if t.id = t'.id then t' else t := by
  apply find?_map_pres
  intro a
  by_cases h : a.id = t'.id <;> simp [h]

/-- With pairwise distinct ids, looking a member up by its id finds it. -/
theorem txById_mem_nodup (l : List Transaction) (t : Transaction)
    (hnd : (l.map Transaction.id).Nodup) (ht : t ∈ l) : txById l t.id = some t :=
  find?_key_eq_some Transaction.id l t hnd ht

/-- Payment analogue of `txById_save`. -/
theorem paymentById_save (l : List Payment) (p' : Payment) (i : Nat) :
    paymentById (savePayment l p') i =
      (paymentById l i).map fun p => if p.id = p'.id then p' else p := by
  apply find?_map_pres
  intro a
  by_cases h : a.id = p'.id <;> simp [h]

/-- Payment analogue of `txById_mem_nodup`. -/
theorem paymentById_mem_nodup (l : List Payment) (p : Payment)
    (hnd : (l.map Payment.id).Nodup) (hp : p ∈ l) : paymentById l p.id = some p :=
  find?_key_eq_some Payment.id l p hnd hp

/-- Crediting changes the credited user's balance by exactly the credit (or
leaves it absent) and leaves every other user's balance untouched. -/
theorem pointsOf_credit (l : List UserStats) (uid : Nat) (pts : Int) :
    pointsOf (creditPoints l uid pts) uid = (pointsOf l uid).map (· + pts) ∧
      ∀ u, u ≠ uid → pointsOf (creditPoints l uid pts) u = pointsOf l u := by
  unfold creditPoints
  cases hfind : l.find? (fun s => decide (s.user_id = uid)) with
  | none => simp [pointsOf, hfind]
  | some s =>
    have hsu : s.user_id = uid := by
      have := List.find?_some hfind
      simpa using this
    constructor
    · unfold pointsOf saveStats
      rw [find?_map_pres]
      · rw [hfind]
        simp [hsu]
      · intro a
        by_cases h : a.user_id = s.user_id
        · simp [h, hsu]
        · have h' : a.user_id ≠ uid := fun he => h (he.trans hsu.symm)
          simp [h, h']
    · intro u hu
      unfold pointsOf saveStats
      rw [find?_map_pres]
      · cases hf2 : l.find? (fun x => decide (x.user_id = u)) with
        | none => rfl
        | some y =>
          have hyu : y.user_id = u := by
            have := List.find?_some hf2
            simpa using this
          have : ¬ y.user_id = s.user_id := by rw [hyu, hsu]; exact hu
          simp [this]
      · intro a
        by_cases h : a.user_id = s.user_id
        · simp [h, hsu]
        · have h' : a.user_id ≠ uid := fun he => h (he.trans hsu.symm)
          simp [h, h']

/-- Every stats record after a credit of a nonnegative amount descends from a
record of the same user with no larger balance. -/
theorem credit_points_mono (l : List UserStats) (uid : Nat) (pts : Int) (hp : 0 ≤ pts) :
    ∀ s' ∈ creditPoints l uid pts, ∃ s ∈ l, s.user_id = s'.user_id ∧ s.points ≤ s'.points := by
  unfold creditPoints
  cases hfind : l.find? (fun s => decide (s.user_id = uid)) with
  | none => exact fun s' h => ⟨s', h, rfl, le_refl _⟩
  | some s =>
    intro s' h
    unfold saveStats at h
    obtain ⟨x, hx, hfx⟩ := List.mem_map.mp h
    by_cases hxe : x.user_id = s.user_id
    · rw [if_pos hxe] at hfx
      refine ⟨s, List.mem_of_find?_eq_some hfind, ?_, ?_⟩
      · rw [← hfx]
      · rw [← hfx]; simpa using hp
    · rw [if_neg hxe] at hfx
      exact ⟨x, hx, by rw [hfx], le_of_eq (by rw [hfx])⟩

/-- A record of the collection after a save is either the saved copy or an
original record. -/
theorem mem_saveTransaction_cases {l : List Transaction} {tU t'' : Transaction}
    (h : t'' ∈ saveTransaction l tU) : t'' = tU ∨ t'' ∈ l := by
  unfold saveTransaction at h
  obtain ⟨t, ht, hft⟩ := List.mem_map.mp h
  by_cases he : t.id = tU.id
  · rw [if_pos he] at hft
    exact Or.inl hft.symm
  · rw [if_neg he] at hft
    exact Or.inr (hft ▸ ht)

/-- Payment analogue of `mem_saveTransaction_cases`. -/
theorem mem_savePayment_cases {l : List Payment} {pU p'' : Payment}
    (h : p'' ∈ savePayment l pU) : p'' = pU ∨ p'' ∈ l := by
  unfold savePayment at h
  obtain ⟨p, hp, hfp⟩ := List.mem_map.mp h
  by_cases he : p.id = pU.id
  · rw [if_pos he] at hfp
    exact Or.inl hfp.symm
  · rw [if_neg he] at hfp
    exact Or.inr (hfp ▸ hp)

/-- Case analysis of one loop body of the poll channel: either nothing
happens, or a found pending BESTCHANGE transaction is completed and its
owner credited. -/
theorem settleBestchangeOne_cases (st : ServerState) (tx : Trc20Transfer) :
    settleBestchangeOne st tx = st ∨
      ∃ t, st.transactions.find? (bestchangePending tx.transaction_id) = some t ∧
        tx.symbol = "USDT" ∧
        settleBestchangeOne st tx =
          { transactions := saveTransaction st.transactions
              ({ t with status := TxStatus.completed }),
            stats := creditPoints st.stats t.user_id (t.amount * 100) } := by
  unfold settleBestchangeOne
  by_cases hsym : tx.symbol ≠ "USDT"
  · rw [if_pos hsym]
    exact Or.inl rfl
  · rw [if_neg hsym]
    cases hfind : st.transactions.find? (bestchangePending tx.transaction_id) with
    | none => exact Or.inl rfl
    | some t => exact Or.inr ⟨t, rfl, not_not.mp hsym, rfl⟩

/-- Case analysis of the FaucetPay callback: either some check fails, the
response is an error status and the store is untouched, or a found pending
FAUCETPAY transaction with the verified amount is completed, the gateway
reference stored and the owner credited. -/
theorem faucetpayCallback_cases (merch : String) (gp : String → PaymentInfo)
    (st : ServerState) (body : FaucetpayBody) :
    (∃ r, faucetpayCallback merch gp st body = (r, st) ∧ r ≠ 200) ∨
      ∃ t, st.transactions.find? (faucetpayPending body.custom) = some t ∧
        (gp body.token).amount1 = t.amount ∧
        faucetpayCallback merch gp st body =
          (200, { transactions := saveTransaction st.transactions
                    ({ t with status := TxStatus.completed,
                              transaction_id := some (gp body.token).transaction_id }),
                  stats := creditPoints st.stats t.user_id (t.amount * 100) }) := by
  unfold faucetpayCallback
  by_cases h1 : body.merchant_username ≠ merch
  · rw [if_pos h1]
    exact Or.inl ⟨403, rfl, by decide⟩
  · rw [if_neg h1]
    by_cases h2 : (gp body.token).valid = false
    · rw [if_pos h2]
      exact Or.inl ⟨400, rfl, by decide⟩
    · rw [if_neg h2]
      by_cases h3 : (gp body.token).currency1 ≠ "USD" ∨ (gp body.token).currency2 ≠ "USDT"
      · rw [if_pos h3]
        exact Or.inl ⟨400, rfl, by decide⟩
      · rw [if_neg h3]
        cases hfind : st.transactions.find? (faucetpayPending body.custom) with
        | none => exact Or.inl ⟨404, rfl, by decide⟩
        | some t =>
          by_cases h4 : (gp body.token).amount1 ≠ t.amount
          · exact Or.inl ⟨400, by simp [h4], by decide⟩
          · exact Or.inr ⟨t, rfl, not_not.mp h4, by simp [h4]⟩

/-- Case analysis of one automation run: no pending payment and nothing
happens, or the first pending payment is completed (CSV match, row reference
captured) or failed (no match). -/
theorem checkPayment_cases (arg : Option String) (st : PayeerJobState) :
    checkPayment arg st = st ∨
      ∃ p, st.payments.find? pendingPayment = some p ∧
        ((∃ row, findPaymentInCSV st.downloads p.commentCode = some row ∧
            checkPayment arg st =
              { st with payments := savePayment st.payments ({ p with status := TxStatus.completed, payeerId := some row.ID }) }) ∨
          (findPaymentInCSV st.downloads p.commentCode = none ∧
            checkPayment arg st =
              { st with payments := savePayment st.payments ({ p with status := TxStatus.failed }) })) := by
  cases hfind : st.payments.find? pendingPayment with
  | none =>
    left
    unfold checkPayment
    rw [hfind]
  | some p =>
    have hstep : checkPayment arg st =
        match findPaymentInCSV st.downloads p.commentCode with
        | some row =>
          { st with payments := savePayment st.payments ({ p with status := TxStatus.completed, payeerId := some row.ID }) }
        | none =>
          { st with payments := savePayment st.payments ({ p with status := TxStatus.failed }) } := by
      unfold checkPayment
      rw [hfind]
    cases hcsv : findPaymentInCSV st.downloads p.commentCode with
    | none =>
      refine Or.inr ⟨p, rfl, Or.inr ⟨hcsv, ?_⟩⟩
      rw [hstep, hcsv]
    | some row =>
      refine Or.inr ⟨p, rfl, Or.inl ⟨row, hcsv, ?_⟩⟩
      rw [hstep, hcsv]

/-- `statusStep` is reflexive. -/
theorem statusStep_refl (s : TxStatus) : statusStep s s := Or.inl rfl

/-- `statusStep` composes: the only outgoing edges start at `pending` and end
in a terminal status, so a terminal status never moves again. -/
theorem statusStep_trans {a b c : TxStatus} (h1 : statusStep a b) (h2 : statusStep b c) :
    statusStep a c := by
  rcases h1 with rfl | ⟨rfl, hb⟩
  · exact h2
  · rcases h2 with rfl | ⟨rfl, _⟩
    · exact Or.inr ⟨rfl, hb⟩
    · rcases hb with hb | hb <;> cases hb

/-- Any transaction record after one poll-loop body descends, id for id, from
an original record by a legal status step. -/
theorem settleBestchangeOne_statusStep (st : ServerState) (tx : Trc20Transfer) :
    ∀ t'' ∈ (settleBestchangeOne st tx).transactions,
      ∃ t ∈ st.transactions, t.id = t''.id ∧ statusStep t.status t''.status := by
  intro t'' h
  rcases settleBestchangeOne_cases st tx with heq | ⟨t0, hfind, _, heq⟩
  · rw [heq] at h
    exact ⟨t'', h, rfl, statusStep_refl _⟩
  · rw [heq] at h
    rcases mem_saveTransaction_cases h with rfl | hmem
    · have hp := List.find?_some hfind
      simp only [bestchangePending, decide_eq_true_eq] at hp
      exact ⟨t0, List.mem_of_find?_eq_some hfind, rfl, Or.inr ⟨hp.2.1, Or.inl rfl⟩⟩
    · exact ⟨t'', hmem, rfl, statusStep_refl _⟩

/-- Any transaction record after a full poll cycle descends, id for id, from
an original record by a legal status step. -/
theorem checkUsdt_statusStep (st : ServerState) (txs : List Trc20Transfer) :
    ∀ t'' ∈ (checkUsdtTransactions st txs).transactions,
      ∃ t ∈ st.transactions, t.id = t''.id ∧ statusStep t.status t''.status := by
  induction txs generalizing st with
  | nil => exact fun t'' h => ⟨t'', h, rfl, statusStep_refl _⟩
  | cons tx txs ih =>
    intro t'' h
    obtain ⟨tm, hm, hid, hs⟩ := ih (settleBestchangeOne st tx) t'' h
    obtain ⟨t, ht, hid2, hs2⟩ := settleBestchangeOne_statusStep st tx tm hm
    exact ⟨t, ht, hid2.trans hid, statusStep_trans hs2 hs⟩

/-- Any transaction record after the FaucetPay callback descends, id for id,
from an original record by a legal status step. -/
theorem faucetpay_statusStep (merch : String) (gp : String → PaymentInfo)
    (st : ServerState) (body : FaucetpayBody) :
    ∀ t'' ∈ (faucetpayCallback merch gp st body).2.transactions,
      ∃ t ∈ st.transactions, t.id = t''.id ∧ statusStep t.status t''.status := by
  intro t'' h
  rcases faucetpayCallback_cases merch gp st body with ⟨r, heq, _⟩ | ⟨t0, hfind, _, heq⟩
  · rw [heq] at h
    exact ⟨t'', h, rfl, statusStep_refl _⟩
  · rw [heq] at h
    rcases mem_saveTransaction_cases h with rfl | hmem
    · have hp := List.find?_some hfind
      simp only [faucetpayPending, decide_eq_true_eq] at hp
      exact ⟨t0, List.mem_of_find?_eq_some hfind, rfl, Or.inr ⟨hp.2.1, Or.inl rfl⟩⟩
    · exact ⟨t'', hmem, rfl, statusStep_refl _⟩

/-- Any payment record after an automation run descends, id for id, from an
original record by a legal status step. -/
theorem checkPayment_statusStep (arg : Option String) (st : PayeerJobState) :
    ∀ p'' ∈ (checkPayment arg st).payments,
      ∃ p ∈ st.payments, p.id = p''.id ∧ statusStep p.status p''.status := by
  intro p'' h
  rcases checkPayment_cases arg st with heq | ⟨p0, hfind, hcase⟩
  · rw [heq] at h
    exact ⟨p'', h, rfl, statusStep_refl _⟩
  · have hp := List.find?_some hfind
    simp only [pendingPayment, decide_eq_true_eq] at hp
    rcases hcase with ⟨row, _, heq⟩ | ⟨_, heq⟩
    · rw [heq] at h
      rcases mem_savePayment_cases h with rfl | hmem
      · exact ⟨p0, List.mem_of_find?_eq_some hfind, rfl, Or.inr ⟨hp, Or.inl rfl⟩⟩
      · exact ⟨p'', hmem, rfl, statusStep_refl _⟩
    · rw [heq] at h
      rcases mem_savePayment_cases h with rfl | hmem
      · exact ⟨p0, List.mem_of_find?_eq_some hfind, rfl, Or.inr ⟨hp, Or.inr rfl⟩⟩
      · exact ⟨p'', hmem, rfl, statusStep_refl _⟩

/-- When no transaction carrying the given correlation code is pending, the
callback's `findOne` fails. -/
theorem faucetpay_find_none (st : ServerState) (custom : String)
    (hc : ∀ t ∈ st.transactions, t.verification_code = custom → t.status ≠ TxStatus.pending) :
    st.transactions.find? (faucetpayPending custom) = none := by
  rw [List.find?_eq_none]
  intro t ht
  simp only [faucetpayPending, decide_eq_true_eq]
  rintro ⟨h1, h2, _⟩
  exact hc t ht h1 h2

/-- When no transaction carrying the given transfer hash as its verification
code is pending, the poll-loop `findOne` fails. -/
theorem bestchange_find_none (st : ServerState) (txid : String)
    (hc : ∀ t ∈ st.transactions, t.verification_code = txid → t.status ≠ TxStatus.pending) :
    st.transactions.find? (bestchangePending txid) = none := by
  rw [List.find?_eq_none]
  intro t ht
  simp only [bestchangePending, decide_eq_true_eq]
  rintro ⟨h1, h2, _⟩
  exact hc t ht h1 h2

/-- A poll-loop body with a failing lookup changes nothing. -/
theorem settleBestchangeOne_noop (st : ServerState) (tx : Trc20Transfer)
    (hfind : st.transactions.find? (bestchangePending tx.transaction_id) = none) :
    settleBestchangeOne st tx = st := by
  rcases settleBestchangeOne_cases st tx with heq | ⟨t0, hf, _, _⟩
  · exact heq
  · rw [hfind] at hf
    cases hf

/-- A callback with a failing lookup answers an error and changes nothing. -/
theorem faucetpayCallback_reject (merch : String) (gp : String → PaymentInfo)
    (st : ServerState) (body : FaucetpayBody)
    (hfind : st.transactions.find? (faucetpayPending body.custom) = none) :
    ∃ r, faucetpayCallback merch gp st body = (r, st) ∧ r ≠ 200 := by
  rcases faucetpayCallback_cases merch gp st body with h | ⟨t0, hf, _, _⟩
  · exact h
  · rw [hfind] at hf
    cases hf

/-- C1: the claim asserts that the pending-check and the status flip form a
single atomic conditional store, so that two settlement attempts racing on
one pending entry produce exactly one success and one balance increment.
The code's settlement sites are `findOne` followed by an unconditional
`save` on two separate awaits.  Under the interleaved schedule (both reads
before either write) both attempts find the entry pending, both succeed and
the balance is credited twice (2000 = 2 × 10 × 100 points), while the
serialized schedule credits once — refuting atomic at-most-once settlement. -/
theorem settlement_race_double_credit :
    runSchedule 1000 racedSchedule
        (initAttempt, initAttempt, { status := TxStatus.pending, points := 0 }) =
      ({ phase := 2, found := true }, { phase := 2, found := true },
        { status := TxStatus.completed, points := 2000 }) ∧
    runSchedule 1000 serialSchedule
        (initAttempt, initAttempt, { status := TxStatus.pending, points := 0 }) =
      ({ phase := 2, found := true }, { phase := 2, found := false },
        { status := TxStatus.completed, points := 1000 }) ∧
    (2000 : Int) ≠ 1000 := by
  exact ⟨by decide, by decide, by decide⟩

/-- C2: every operation of the three channels moves each record's status only
along `pending → completed` or `pending → failed` (or leaves it unchanged);
replaying the webhook when no transaction with its correlation code is still
pending is rejected with a non-200 answer and no state change; and a poll
transfer whose hash only matches non-pending transactions credits nothing. -/
theorem status_transitions_monotonic_and_replay_noop :
    (∀ (merch : String) (gp : String → PaymentInfo) (st : ServerState) (body : FaucetpayBody),
        ∀ t'' ∈ (faucetpayCallback merch gp st body).2.transactions,
          ∃ t ∈ st.transactions, t.id = t''.id ∧ statusStep t.status t''.status) ∧
    (∀ (st : ServerState) (txs : List Trc20Transfer),
        ∀ t'' ∈ (checkUsdtTransactions st txs).transactions,
          ∃ t ∈ st.transactions, t.id = t''.id ∧ statusStep t.status t''.status) ∧
    (∀ (arg : Option String) (st : PayeerJobState),
        ∀ p'' ∈ (checkPayment arg st).payments,
          ∃ p ∈ st.payments, p.id = p''.id ∧ statusStep p.status p''.status) ∧
    (∀ (merch : String) (gp : String → PaymentInfo) (st : ServerState) (body : FaucetpayBody),
        (∀ t ∈ st.transactions, t.verification_code = body.custom →
          t.status ≠ TxStatus.pending) →
        ∃ r, faucetpayCallback merch gp st body = (r, st) ∧ r ≠ 200) ∧
    (∀ (st : ServerState) (tx : Trc20Transfer),
        (∀ t ∈ st.transactions, t.verification_code = tx.transaction_id →
          t.status ≠ TxStatus.pending) →
        settleBestchangeOne st tx = st) :=
  ⟨faucetpay_statusStep, checkUsdt_statusStep, checkPayment_statusStep,
    fun merch gp st body hc =>
      faucetpayCallback_reject merch gp st body (faucetpay_find_none st body.custom hc),
    fun st tx hc =>
      settleBestchangeOne_noop st tx (bestchange_find_none st tx.transaction_id hc)⟩

/-- Witness for C2: on a store whose only transaction (correlation code `c1`)
is already completed, the replayed webhook is rejected without mutation and a
poll transfer with hash `c1` changes nothing. -/
theorem status_transitions_replay_witness :
    ((∀ t ∈ fpStateDone.transactions, t.verification_code = fpBody.custom →
        t.status ≠ TxStatus.pending) ∧
      ∃ r, faucetpayCallback "merch" fpGetPayment fpStateDone fpBody = (r, fpStateDone) ∧
        r ≠ 200) ∧
    ((∀ t ∈ fpStateDone.transactions, t.verification_code = "c1" →
        t.status ≠ TxStatus.pending) ∧
      settleBestchangeOne fpStateDone { transaction_id := "c1", symbol := "USDT" } =
        fpStateDone) :=
  ⟨⟨by decide,
    status_transitions_monotonic_and_replay_noop.2.2.2.1 "merch" fpGetPayment fpStateDone
      fpBody (by decide)⟩,
   ⟨by decide,
    status_transitions_monotonic_and_replay_noop.2.2.2.2 fpStateDone
      { transaction_id := "c1", symbol := "USDT" } (by decide)⟩⟩

/-- Distinct ids identify records. -/
theorem tx_eq_of_id (l : List Transaction) (hnd : (l.map Transaction.id).Nodup)
    {t t0 : Transaction} (ht : t ∈ l) (ht0 : t0 ∈ l) (hid : t.id = t0.id) : t = t0 :=
  List.inj_on_of_nodup_map hnd ht ht0 hid

/-- Distinct verification codes identify records. -/
theorem tx_eq_of_code (l : List Transaction)
    (hnd : (l.map Transaction.verification_code).Nodup) {t t0 : Transaction}
    (ht : t ∈ l) (ht0 : t0 ∈ l) (hc : t.verification_code = t0.verification_code) : t = t0 :=
  List.inj_on_of_nodup_map hnd ht ht0 hc

/-- Unfolding of a successful poll-loop body. -/
theorem settleBestchangeOne_eq (st : ServerState) (tx : Trc20Transfer) (t0 : Transaction)
    (hsym : tx.symbol = "USDT")
    (hfind : st.transactions.find? (bestchangePending tx.transaction_id) = some t0) :
    settleBestchangeOne st tx =
      { transactions := saveTransaction st.transactions ({ t0 with status := TxStatus.completed }),
        stats := creditPoints st.stats t0.user_id (t0.amount * 100) } := by
  unfold settleBestchangeOne
  rw [if_neg (not_not_intro hsym), hfind]

/-- C5: each poll cycle is the fold of the per-transfer loop body over the
fetched transfers; a non-USDT transfer is skipped entirely; and, when ids
and verification codes are pairwise distinct, one loop body changes exactly
those transactions that are `pending`, carry the `BESTCHANGE` method and
whose `verification_code` slot equals the transfer's hash — and changes them
precisely by marking them `completed`. -/
theorem poll_settles_exactly_matching :
    (∀ (st : ServerState) (tx : Trc20Transfer), tx.symbol ≠ "USDT" →
        settleBestchangeOne st tx = st) ∧
    (∀ (st : ServerState) (txs : List Trc20Transfer),
        checkUsdtTransactions st txs = txs.foldl settleBestchangeOne st) ∧
    (∀ (st : ServerState) (tx : Trc20Transfer),
        (st.transactions.map Transaction.id).Nodup →
        (st.transactions.map Transaction.verification_code).Nodup →
        ∀ t ∈ st.transactions,
          ((txById (settleBestchangeOne st tx).transactions t.id ≠ some t) ↔
            (tx.symbol = "USDT" ∧ t.status = TxStatus.pending ∧
              t.payment_method = "BESTCHANGE" ∧ t.verification_code = tx.transaction_id)) ∧
          ((tx.symbol = "USDT" ∧ t.status = TxStatus.pending ∧
              t.payment_method = "BESTCHANGE" ∧ t.verification_code = tx.transaction_id) →
            txById (settleBestchangeOne st tx).transactions t.id =
              some ({ t with status := TxStatus.completed }))) := by
  refine ⟨?_, fun _ _ => rfl, ?_⟩
  · intro st tx hsym
    unfold settleBestchangeOne
    rw [if_pos hsym]
  · intro st tx hndid hndcode t ht
    by_cases hsym : tx.symbol = "USDT"
    · cases hfind : st.transactions.find? (bestchangePending tx.transaction_id) with
      | none =>
        have heq := settleBestchangeOne_noop st tx hfind
        rw [heq, txById_mem_nodup st.transactions t hndid ht]
        have hnot := List.find?_eq_none.mp hfind t ht
        simp only [bestchangePending, decide_eq_true_eq] at hnot
        constructor
        · constructor
          · intro hne
            exact absurd rfl hne
          · rintro ⟨_, hpend, hbc, hcode⟩
            exact absurd ⟨hcode, hpend, hbc⟩ hnot
        · rintro ⟨_, hpend, hbc, hcode⟩
          exact absurd ⟨hcode, hpend, hbc⟩ hnot
      | some t0 =>
        have hp := List.find?_some hfind
        simp only [bestchangePending, decide_eq_true_eq] at hp
        have ht0 : t0 ∈ st.transactions := List.mem_of_find?_eq_some hfind
        have heq := settleBestchangeOne_eq st tx t0 hsym hfind
        have hlook : txById (settleBestchangeOne st tx).transactions t.id =
            (txById st.transactions t.id).map
              (fun x => if x.id = ({ t0 with status := TxStatus.completed } : Transaction).id
                then ({ t0 with status := TxStatus.completed }) else x) := by
          rw [heq]
          exact txById_save st.transactions _ t.id
        rw [txById_mem_nodup st.transactions t hndid ht] at hlook
        simp only [Option.map_some'] at hlook
        by_cases hid : t.id = t0.id
        · have hteq : t = t0 := tx_eq_of_id st.transactions hndid ht ht0 hid
          subst hteq
          rw [if_pos rfl] at hlook
          refine ⟨iff_of_true ?_ ⟨hsym, hp.2.1, hp.2.2, hp.1⟩, fun _ => hlook⟩
          rw [hlook]
          intro h2
          have h3 := congrArg Transaction.status (Option.some.inj h2)
          rw [hp.2.1] at h3
          exact TxStatus.noConfusion h3
        · rw [if_neg hid] at hlook
          refine ⟨iff_of_false (fun hne => hne hlook) ?_, ?_⟩
          · rintro ⟨_, hpend, hbc, hcode⟩
            exact hid (congrArg Transaction.id
              (tx_eq_of_code st.transactions hndcode ht ht0 (hcode.trans hp.1.symm)))
          · rintro ⟨_, hpend, hbc, hcode⟩
            exact absurd (congrArg Transaction.id
              (tx_eq_of_code st.transactions hndcode ht ht0 (hcode.trans hp.1.symm))) hid
    · have heq : settleBestchangeOne st tx = st := by
        unfold settleBestchangeOne
        rw [if_pos hsym]
      rw [heq, txById_mem_nodup st.transactions t hndid ht]
      constructor
      · constructor
        · intro hne
          exact absurd rfl hne
        · rintro ⟨h, _⟩
          exact absurd h hsym
      · rintro ⟨h, _⟩
        exact absurd h hsym

/-- Witness for C5: on the sample store, the poll-loop body for the matching
USDT transfer changes exactly the sample transaction, marking it completed. -/
theorem poll_settles_witness :
    ((sampleState.transactions.map Transaction.id).Nodup ∧
      (sampleState.transactions.map Transaction.verification_code).Nodup ∧
      sampleTx ∈ sampleState.transactions) ∧
    ((txById (settleBestchangeOne sampleState sampleTransfer).transactions sampleTx.id ≠
        some sampleTx) ↔
      (sampleTransfer.symbol = "USDT" ∧ sampleTx.status = TxStatus.pending ∧
        sampleTx.payment_method = "BESTCHANGE" ∧
        sampleTx.verification_code = sampleTransfer.transaction_id)) :=
  ⟨⟨by decide, by decide, by decide⟩,
    (poll_settles_exactly_matching.2.2 sampleState sampleTransfer (by decide) (by decide)
      sampleTx (by decide)).1⟩

/-- A poll-loop body preserves nonnegativity of the requested amounts. -/
theorem settle_amounts_nonneg (st : ServerState) (tx : Trc20Transfer)
    (h : ∀ t ∈ st.transactions, 0 ≤ t.amount) :
    ∀ t'' ∈ (settleBestchangeOne st tx).transactions, 0 ≤ t''.amount := by
  intro t'' ht''
  rcases settleBestchangeOne_cases st tx with heq | ⟨t0, hfind, _, heq⟩
  · rw [heq] at ht''
    exact h t'' ht''
  · rw [heq] at ht''
    rcases mem_saveTransaction_cases ht'' with rfl | hmem
    · exact h t0 (List.mem_of_find?_eq_some hfind)
    · exact h t'' hmem

/-- One poll-loop body never decreases any balance (nonnegative amounts). -/
theorem settle_points_mono (st : ServerState) (tx : Trc20Transfer)
    (h : ∀ t ∈ st.transactions, 0 ≤ t.amount) :
    ∀ s' ∈ (settleBestchangeOne st tx).stats,
      ∃ s ∈ st.stats, s.user_id = s'.user_id ∧ s.points ≤ s'.points := by
  intro s' hs'
  rcases settleBestchangeOne_cases st tx with heq | ⟨t0, hfind, _, heq⟩
  · rw [heq] at hs'
    exact ⟨s', hs', rfl, le_refl _⟩
  · rw [heq] at hs'
    have hamt : 0 ≤ t0.amount * 100 :=
      mul_nonneg (h t0 (List.mem_of_find?_eq_some hfind)) (by decide)
    exact credit_points_mono st.stats t0.user_id (t0.amount * 100) hamt s' hs'

/-- A full poll cycle never decreases any balance (nonnegative amounts). -/
theorem checkUsdt_points_mono (st : ServerState) (txs : List Trc20Transfer)
    (h : ∀ t ∈ st.transactions, 0 ≤ t.amount) :
    ∀ s' ∈ (checkUsdtTransactions st txs).stats,
      ∃ s ∈ st.stats, s.user_id = s'.user_id ∧ s.points ≤ s'.points := by
  induction txs generalizing st with
  | nil => exact fun s' hs' => ⟨s', hs', rfl, le_refl _⟩
  | cons tx txs ih =>
    intro s' hs'
    obtain ⟨s1, hs1, hu1, hle1⟩ :=
      ih (settleBestchangeOne st tx) (settle_amounts_nonneg st tx h) s' hs'
    obtain ⟨s, hs, hu, hle⟩ := settle_points_mono st tx h s1 hs1
    exact ⟨s, hs, hu.trans hu1, hle.trans hle1⟩

/-- The FaucetPay callback never decreases any balance (nonnegative amounts). -/
theorem faucetpay_points_mono (merch : String) (gp : String → PaymentInfo)
    (st : ServerState) (body : FaucetpayBody)
    (h : ∀ t ∈ st.transactions, 0 ≤ t.amount) :
    ∀ s' ∈ (faucetpayCallback merch gp st body).2.stats,
      ∃ s ∈ st.stats, s.user_id = s'.user_id ∧ s.points ≤ s'.points := by
  intro s' hs'
  rcases faucetpayCallback_cases merch gp st body with ⟨r, heq, _⟩ | ⟨t0, hfind, _, heq⟩
  · rw [heq] at hs'
    exact ⟨s', hs', rfl, le_refl _⟩
  · rw [heq] at hs'
    have hamt : 0 ≤ t0.amount * 100 :=
      mul_nonneg (h t0 (List.mem_of_find?_eq_some hfind)) (by decide)
    exact credit_points_mono st.stats t0.user_id (t0.amount * 100) hamt s' hs'

/-- Counterexample to C3: the poll channel settles the sample transaction
(status flips to `completed`, 1000 points credited) but stores nothing in the
external-reference slot — `transaction_id` is still `none` after settlement,
although the channel reported transfer hash `tx1`. -/
theorem bestchange_settle_drops_reference_counterexample :
    checkUsdtTransactions sampleState [sampleTransfer] =
      { transactions := [{ sampleTx with status := TxStatus.completed }],
        stats := [{ user_id := 7, points := 1000 }] } ∧
    ({ sampleTx with status := TxStatus.completed } : Transaction).status =
      TxStatus.completed ∧
    ({ sampleTx with status := TxStatus.completed } : Transaction).transaction_id = none := by
  exact ⟨by decide, rfl, rfl⟩

/-- C3 (amended): the webhook channel settles with all three effects — status
`completed`, gateway reference stored, `amount * 100` points credited (when a
stats record exists, tracked by the `Option.map`); the poll channel flips the
status and credits but leaves the external-reference slot unchanged; the
automation channel never touches any balance; and no channel ever decreases
a balance when all requested amounts are nonnegative. -/
theorem settlement_effects_per_channel :
    (∀ (merch : String) (gp : String → PaymentInfo) (st : ServerState)
        (body : FaucetpayBody) (st' : ServerState),
        (st.transactions.map Transaction.id).Nodup →
        faucetpayCallback merch gp st body = (200, st') →
        ∃ t ∈ st.transactions, t.status = TxStatus.pending ∧
          t.payment_method = "FAUCETPAY" ∧
          txById st'.transactions t.id =
            some ({ t with status := TxStatus.completed,
                           transaction_id := some (gp body.token).transaction_id }) ∧
          pointsOf st'.stats t.user_id =
            (pointsOf st.stats t.user_id).map (· + t.amount * 100)) ∧
    (∀ (st : ServerState) (tx : Trc20Transfer) (t : Transaction),
        (st.transactions.map Transaction.id).Nodup →
        st.transactions.find? (bestchangePending tx.transaction_id) = some t →
        tx.symbol = "USDT" →
        txById (settleBestchangeOne st tx).transactions t.id =
            some ({ t with status := TxStatus.completed }) ∧
          ({ t with status := TxStatus.completed } : Transaction).transaction_id =
            t.transaction_id ∧
          pointsOf (settleBestchangeOne st tx).stats t.user_id =
            (pointsOf st.stats t.user_id).map (· + t.amount * 100)) ∧
    (∀ (arg : Option String) (st : PayeerJobState), (checkPayment arg st).stats = st.stats) ∧
    (∀ (merch : String) (gp : String → PaymentInfo) (st : ServerState) (body : FaucetpayBody),
        (∀ t ∈ st.transactions, 0 ≤ t.amount) →
        ∀ s' ∈ (faucetpayCallback merch gp st body).2.stats,
          ∃ s ∈ st.stats, s.user_id = s'.user_id ∧ s.points ≤ s'.points) ∧
    (∀ (st : ServerState) (txs : List Trc20Transfer),
        (∀ t ∈ st.transactions, 0 ≤ t.amount) →
        ∀ s' ∈ (checkUsdtTransactions st txs).stats,
          ∃ s ∈ st.stats, s.user_id = s'.user_id ∧ s.points ≤ s'.points) := by
  refine ⟨?_, ?_, ?_, faucetpay_points_mono, checkUsdt_points_mono⟩
  · intro merch gp st body st' hnd heq
    rcases faucetpayCallback_cases merch gp st body with ⟨r, heq2, hr⟩ | ⟨t0, hfind, _, heq2⟩
    · rw [heq] at heq2
      exact absurd (congrArg Prod.fst heq2).symm hr
    · rw [heq] at heq2
      have hst' := (Prod.mk.injEq _ _ _ _).mp heq2 |>.2
      have hp := List.find?_some hfind
      simp only [faucetpayPending, decide_eq_true_eq] at hp
      have ht0 : t0 ∈ st.transactions := List.mem_of_find?_eq_some hfind
      have hlook := txById_save st.transactions
        ({ t0 with status := TxStatus.completed,
                   transaction_id := some (gp body.token).transaction_id }) t0.id
      rw [txById_mem_nodup st.transactions t0 hnd ht0] at hlook
      simp only [Option.map_some', eq_self_iff_true, if_true] at hlook
      refine ⟨t0, ht0, hp.2.1, hp.2.2, ?_, ?_⟩
      · rw [hst']
        exact hlook
      · rw [hst']
        exact (pointsOf_credit st.stats t0.user_id (t0.amount * 100)).1
  · intro st tx t hnd hfind hsym
    have heq := settleBestchangeOne_eq st tx t hsym hfind
    have ht : t ∈ st.transactions := List.mem_of_find?_eq_some hfind
    have hlook := txById_save st.transactions ({ t with status := TxStatus.completed }) t.id
    rw [txById_mem_nodup st.transactions t hnd ht] at hlook
    simp only [Option.map_some', eq_self_iff_true, if_true] at hlook
    refine ⟨?_, rfl, ?_⟩
    · rw [heq]
      exact hlook
    · rw [heq]
      exact (pointsOf_credit st.stats t.user_id (t.amount * 100)).1
  · intro arg st
    rcases checkPayment_cases arg st with heq | ⟨p0, _, ⟨row, _, heq⟩ | ⟨_, heq⟩⟩ <;> rw [heq]

/-- Witness for C3 (amended): on the sample store the poll-loop body flips the
sample transaction to `completed`, leaves its reference slot untouched and
credits 1000 points. -/
theorem settlement_effects_witness :
    ((sampleState.transactions.map Transaction.id).Nodup ∧
      sampleState.transactions.find? (bestchangePending sampleTransfer.transaction_id) =
        some sampleTx ∧
      sampleTransfer.symbol = "USDT") ∧
    (txById (settleBestchangeOne sampleState sampleTransfer).transactions sampleTx.id =
        some ({ sampleTx with status := TxStatus.completed }) ∧
      ({ sampleTx with status := TxStatus.completed } : Transaction).transaction_id =
        sampleTx.transaction_id ∧
      pointsOf (settleBestchangeOne sampleState sampleTransfer).stats sampleTx.user_id =
        (pointsOf sampleState.stats sampleTx.user_id).map (· + sampleTx.amount * 100)) :=
  ⟨⟨by decide, by decide, rfl⟩,
    settlement_effects_per_channel.2.1 sampleState sampleTransfer sampleTx
      (by decide) (by decide) rfl⟩

/-- Counterexample to C4: a webhook body whose own `amount1` field declares 9
while the transaction's requested amount is 10 is accepted with a 200 answer
and a full settlement, because the handler compares only the gateway-verified
amount (here 10) — the body's amount field is never consulted. -/
theorem webhook_body_amount_ignored_counterexample :
    fpBody.amount1 = "9" ∧ fpTx.amount = 10 ∧
    faucetpayCallback "merch" fpGetPayment fpState fpBody =
      (200, { transactions := [fpTxDone], stats := [{ user_id := 9, points := 1000 }] }) ∧
    (faucetpayCallback "merch" fpGetPayment fpState fpBody).2 ≠ fpState := by
  exact ⟨rfl, rfl, by decide, by decide⟩

/-- C4 (amended): every failed check of the callback — merchant mismatch,
invalid token, currency mismatch, no pending transaction with the correlation
code, amount mismatch — answers an error status with the store untouched;
the amount compared is the gateway-verified `get-payment` amount, and the
webhook body's own `amount1`/`amount2` fields never influence the outcome. -/
theorem faucetpay_rejections_no_mutation :
    ∀ (merch : String) (gp : String → PaymentInfo) (st : ServerState) (body : FaucetpayBody),
      (body.merchant_username ≠ merch → faucetpayCallback merch gp st body = (403, st)) ∧
      (body.merchant_username = merch → (gp body.token).valid = false →
        faucetpayCallback merch gp st body = (400, st)) ∧
      (body.merchant_username = merch → (gp body.token).valid = true →
        ((gp body.token).currency1 ≠ "USD" ∨ (gp body.token).currency2 ≠ "USDT") →
        faucetpayCallback merch gp st body = (400, st)) ∧
      (body.merchant_username = merch → (gp body.token).valid = true →
        (gp body.token).currency1 = "USD" → (gp body.token).currency2 = "USDT" →
        st.transactions.find? (faucetpayPending body.custom) = none →
        faucetpayCallback merch gp st body = (404, st)) ∧
      (∀ t : Transaction, body.merchant_username = merch → (gp body.token).valid = true →
        (gp body.token).currency1 = "USD" → (gp body.token).currency2 = "USDT" →
        st.transactions.find? (faucetpayPending body.custom) = some t →
        (gp body.token).amount1 ≠ t.amount →
        faucetpayCallback merch gp st body = (400, st)) ∧
      (∀ a1 a2 : String,
        faucetpayCallback merch gp st { body with amount1 := a1, amount2 := a2 } =
          faucetpayCallback merch gp st body) := by
  intro merch gp st body
  refine ⟨?_, ?_, ?_, ?_, ?_, fun a1 a2 => rfl⟩
  · intro h1
    unfold faucetpayCallback
    rw [if_pos h1]
  · intro h1 h2
    unfold faucetpayCallback
    rw [if_neg (not_not_intro h1), if_pos h2]
  · intro h1 h2 h3
    have hvf : ¬ (gp body.token).valid = false := by simp [h2]
    unfold faucetpayCallback
    rw [if_neg (not_not_intro h1), if_neg hvf, if_pos h3]
  · intro h1 h2 h3 h4 hfind
    have hvf : ¬ (gp body.token).valid = false := by simp [h2]
    have hcur : ¬ ((gp body.token).currency1 ≠ "USD" ∨ (gp body.token).currency2 ≠ "USDT") := by
      simp [h3, h4]
    unfold faucetpayCallback
    rw [if_neg (not_not_intro h1), if_neg hvf, if_neg hcur, hfind]
  · intro t h1 h2 h3 h4 hfind hamt
    have hvf : ¬ (gp body.token).valid = false := by simp [h2]
    have hcur : ¬ ((gp body.token).currency1 ≠ "USD" ∨ (gp body.token).currency2 ≠ "USDT") := by
      simp [h3, h4]
    unfold faucetpayCallback
    rw [if_neg (not_not_intro h1), if_neg hvf, if_neg hcur, hfind]
    simp [hamt]

/-- Witness for C4 (amended): with the gateway reporting a verified amount of
9 against a requested amount of 10, the callback answers 400 and the store is
untouched. -/
theorem faucetpay_rejections_witness :
    (fpBody.merchant_username = "merch" ∧ (fpGetPayment9 fpBody.token).valid = true ∧
      (fpGetPayment9 fpBody.token).currency1 = "USD" ∧
      (fpGetPayment9 fpBody.token).currency2 = "USDT" ∧
      fpState.transactions.find? (faucetpayPending fpBody.custom) = some fpTx ∧
      (fpGetPayment9 fpBody.token).amount1 ≠ fpTx.amount) ∧
    faucetpayCallback "merch" fpGetPayment9 fpState fpBody = (400, fpState) :=
  ⟨⟨rfl, rfl, rfl, rfl, by decide, by decide⟩,
    (faucetpay_rejections_no_mutation "merch" fpGetPayment9 fpState fpBody).2.2.2.2.1 fpTx
      rfl rfl rfl rfl (by decide) (by decide)⟩

/-- C6: for a nonempty correlation code, a CSV row matches exactly when its
`Amount` column is `1.00`, its currency column is `RUB`, and its trimmed
`Description` equals the code — so a row with description ` C ` matches the
code `C`. -/
theorem csv_row_match_iff :
    ∀ (c : String) (row : CsvRow), c ≠ "" →
      (rowMatches (some c) row = true ↔
        (row.Amount = "1.00" ∧ row.currencyColumn = "RUB" ∧ jsTrim row.Description = c)) := by
  intro c row hc
  unfold rowMatches
  rw [decide_eq_true_eq]
  constructor
  · rintro ⟨h1, h2, _, h4⟩
    exact ⟨h1, h2, Option.some.inj h4⟩
  · rintro ⟨h1, h2, h3⟩
    refine ⟨h1, h2, ?_, by rw [h3]⟩
    intro hdesc
    apply hc
    rw [← h3, hdesc]
    rfl

/-- Witness for C6: code `C` is nonempty and the sample row with description
` C ` matches it. -/
theorem csv_row_match_witness :
    (("C" : String) ≠ "") ∧
    (rowMatches (some "C") csvRowC = true ↔
      (csvRowC.Amount = "1.00" ∧ csvRowC.currencyColumn = "RUB" ∧
        jsTrim csvRowC.Description = "C")) ∧
    rowMatches (some "C") csvRowC = true :=
  ⟨by decide, csv_row_match_iff "C" csvRowC (by decide), by decide⟩

/-- C7: an empty downloads directory makes `findPaymentInCSV` return the
no-match result (without raising), and with pairwise distinct modification
times the selected file is exactly the one with the greatest modification
time. -/
theorem export_file_selection :
    (∀ c, findPaymentInCSV [] c = none) ∧
    (∀ files : List FileEntry, files ≠ [] → (files.map FileEntry.mtime).Nodup →
      ∃ f, newestFile files = some f ∧ f ∈ files ∧
        ∀ g ∈ files, g ≠ f → g.mtime < f.mtime) := by
  constructor
  · intro c
    rfl
  · intro files hne hnd
    have hperm := List.perm_insertionSort fileLe files
    have hsorted := List.sorted_insertionSort fileLe files
    cases hs : List.insertionSort fileLe files with
    | nil =>
      rw [hs] at hperm
      exact absurd hperm.symm.eq_nil hne
    | cons f rest =>
      have hf : f ∈ files := hperm.mem_iff.mp (by rw [hs]; exact List.mem_cons_self f rest)
      refine ⟨f, ?_, hf, ?_⟩
      · unfold newestFile
        rw [hs]
        rfl
      · intro g hg hgf
        have hgs : g ∈ f :: rest := by rw [← hs]; exact hperm.mem_iff.mpr hg
        rcases List.mem_cons.mp hgs with rfl | hgr
        · exact absurd rfl hgf
        · have hle : fileLe f g := by
            rw [hs] at hsorted
            exact List.rel_of_sorted_cons hsorted g hgr
          exact lt_of_le_of_ne hle
            (fun hmt => hgf (List.inj_on_of_nodup_map hnd hg hf hmt))

/-- Witness for C7: the empty directory yields no match, and among three
files with distinct times the one with time 5 is selected. -/
theorem export_file_selection_witness :
    (findPaymentInCSV [] (some "C") = none) ∧
    (threeFiles ≠ [] ∧ (threeFiles.map FileEntry.mtime).Nodup) ∧
    (∃ f, newestFile threeFiles = some f ∧ f ∈ threeFiles ∧
      ∀ g ∈ threeFiles, g ≠ f → g.mtime < f.mtime) :=
  ⟨export_file_selection.1 (some "C"), ⟨by decide, by decide⟩,
    export_file_selection.2 threeFiles (by decide) (by decide)⟩

/-- Counterexample to C8: a run that finds a matching row settles the payment
and captures the row's reference, yet the consumed export file is still in
the downloads directory when the run ends — nothing in the script deletes
it. -/
theorem export_file_not_deleted_counterexample :
    (checkPayment none payJobState).payments =
      [{ samplePayment with status := TxStatus.completed, payeerId := some "op777" }] ∧
    (checkPayment none payJobState).downloads = [exportFile] ∧
    payJobState.downloads = [exportFile] := by
  exact ⟨by decide, by decide, rfl⟩

/-- C8 (amended): on a match the run captures the row's `ID` into `payeerId`
and completes the payment, but it never deletes the export file — the
downloads directory after any run equals the directory before. -/
theorem automation_match_keeps_file :
    ∀ (arg : Option String) (st : PayeerJobState),
      (checkPayment arg st).downloads = st.downloads ∧
      (∀ (p : Payment) (row : CsvRow), st.payments.find? pendingPayment = some p →
        findPaymentInCSV st.downloads p.commentCode = some row →
        (st.payments.map Payment.id).Nodup →
        paymentById (checkPayment arg st).payments p.id =
          some ({ p with status := TxStatus.completed, payeerId := some row.ID })) := by
  intro arg st
  constructor
  · rcases checkPayment_cases arg st with heq | ⟨p0, _, ⟨row, _, heq⟩ | ⟨_, heq⟩⟩ <;> rw [heq]
  · intro p row hfind hcsv hnd
    have hstep : checkPayment arg st =
        match findPaymentInCSV st.downloads p.commentCode with
        | some row =>
          { st with payments := savePayment st.payments ({ p with status := TxStatus.completed, payeerId := some row.ID }) }
        | none =>
          { st with payments := savePayment st.payments ({ p with status := TxStatus.failed }) } := by
      unfold checkPayment
      rw [hfind]
    rw [hstep, hcsv]
    have hlook := paymentById_save st.payments
      ({ p with status := TxStatus.completed, payeerId := some row.ID }) p.id
    rw [paymentById_mem_nodup st.payments p hnd (List.mem_of_find?_eq_some hfind)] at hlook
    simp only [Option.map_some', eq_self_iff_true, if_true] at hlook
    exact hlook

/-- Witness for C8 (amended): on the sample run the match is found, the
payment completed with reference `op777`, and the export file kept. -/
theorem automation_match_keeps_file_witness :
    (payJobState.payments.find? pendingPayment = some samplePayment ∧
      findPaymentInCSV payJobState.downloads samplePayment.commentCode = some csvRowC ∧
      (payJobState.payments.map Payment.id).Nodup) ∧
    ((checkPayment none payJobState).downloads = payJobState.downloads ∧
      paymentById (checkPayment none payJobState).payments samplePayment.id =
        some ({ samplePayment with status := TxStatus.completed, payeerId := some csvRowC.ID })) :=
  ⟨⟨by decide, by decide, by decide⟩,
    ⟨(automation_match_keeps_file none payJobState).1,
      (automation_match_keeps_file none payJobState).2 samplePayment csvRowC
        (by decide) (by decide) (by decide)⟩⟩

/-- Counterexample to C9: the run is invoked with the explicit external
reference `B`, naming the second pending payment, yet it operates on the
first pending payment (marking it failed after the empty-directory scan)
and leaves the named payment untouched and pending. -/
theorem automation_ignores_argument_counterexample :
    paymentB.payeerId = some "B" ∧
    checkPayment (some "B") twoPendingState =
      { payments := [{ samplePayment with status := TxStatus.failed }, paymentB],
        downloads := [], stats := [] } ∧
    paymentB.status = TxStatus.pending := by
  exact ⟨rfl, by decide, rfl⟩

/-- C9 (amended): the invocation argument is never consulted — any two
invocations on the same state coincide; a state with no pending payment is
returned unchanged; and the run mutates at most the first pending payment in
collection order, leaving every other record exactly as it was. -/
theorem automation_selects_first_pending :
    (∀ (a b : Option String) (st : PayeerJobState), checkPayment a st = checkPayment b st) ∧
    (∀ (arg : Option String) (st : PayeerJobState),
      st.payments.find? pendingPayment = none → checkPayment arg st = st) ∧
    (∀ (arg : Option String) (st : PayeerJobState) (p0 : Payment),
      st.payments.find? pendingPayment = some p0 →
      (st.payments.map Payment.id).Nodup →
      ∀ q ∈ st.payments, q.id ≠ p0.id →
        paymentById (checkPayment arg st).payments q.id = some q) := by
  refine ⟨fun a b st => rfl, ?_, ?_⟩
  · intro arg st hfind
    unfold checkPayment
    rw [hfind]
  · intro arg st p0 hfind hnd q hq hqid
    have hstep : checkPayment arg st =
        match findPaymentInCSV st.downloads p0.commentCode with
        | some row =>
          { st with payments := savePayment st.payments ({ p0 with status := TxStatus.completed, payeerId := some row.ID }) }
        | none =>
          { st with payments := savePayment st.payments ({ p0 with status := TxStatus.failed }) } := by
      unfold checkPayment
      rw [hfind]
    cases hcsv : findPaymentInCSV st.downloads p0.commentCode with
    | some row =>
      rw [hstep, hcsv]
      have hlook := paymentById_save st.payments
        ({ p0 with status := TxStatus.completed, payeerId := some row.ID }) q.id
      rw [paymentById_mem_nodup st.payments q hnd hq] at hlook
      simp only [Option.map_some'] at hlook
      rw [show ({ p0 with status := TxStatus.completed, payeerId := some row.ID } : Payment).id = p0.id from rfl,
        if_neg hqid] at hlook
      exact hlook
    | none =>
      rw [hstep, hcsv]
      have hlook := paymentById_save st.payments ({ p0 with status := TxStatus.failed }) q.id
      rw [paymentById_mem_nodup st.payments q hnd hq] at hlook
      simp only [Option.map_some'] at hlook
      rw [show ({ p0 with status := TxStatus.failed } : Payment).id = p0.id from rfl,
        if_neg hqid] at hlook
      exact hlook

/-- Witness for C9 (amended): on the two-payment state, any argument gives
the same run, and the second payment (id 2) is untouched. -/
theorem automation_selects_first_pending_witness :
    checkPayment (some "B") twoPendingState = checkPayment none twoPendingState ∧
    (twoPendingState.payments.find? pendingPayment = some samplePayment ∧
      (twoPendingState.payments.map Payment.id).Nodup ∧
      paymentB ∈ twoPendingState.payments ∧ paymentB.id ≠ samplePayment.id) ∧
    paymentById (checkPayment (some "B") twoPendingState).payments paymentB.id =
      some paymentB :=
  ⟨automation_selects_first_pending.1 (some "B") none twoPendingState,
    ⟨by decide, by decide, by decide, by decide⟩,
    automation_selects_first_pending.2.2 (some "B") twoPendingState samplePayment
      (by decide) (by decide) paymentB (by decide) (by decide)⟩

/-- C10: a PAYEER webhook with `m_status = 'success'` stores a new `Payment`
with default status `pending` carrying the body's order id, amount, currency
and description, spawns the check script, and answers 200 — the answer
depends on nothing but `m_status`, so there is no authenticity verification
and no duplicate check (the store may already hold a payment with the same
order id).  Any other `m_status` answers 400 and stores nothing. -/
theorem payeer_webhook_behavior :
    ∀ (freshId : Nat) (payments : List Payment) (body : PayeerWebhookBody),
      (body.m_status = "success" →
        ∃ newP : Payment,
          payeerWebhook freshId payments body =
            (200, payments ++ [newP], some body.m_orderid) ∧
          newP.status = TxStatus.pending ∧ newP.payeerId = some body.m_orderid ∧
          newP.amount = body.m_amount ∧ newP.currency = body.m_curr ∧
          newP.protectionCode = body.m_desc ∧ newP.commentCode = none) ∧
      (body.m_status ≠ "success" →
        payeerWebhook freshId payments body = (400, payments, none)) ∧
      (∀ body' : PayeerWebhookBody, body.m_status = body'.m_status →
        (payeerWebhook freshId payments body).1 =
          (payeerWebhook freshId payments body').1) := by
  intro freshId payments body
  refine ⟨?_, ?_, ?_⟩
  · intro h
    refine ⟨{ id := freshId, payeerId := some body.m_orderid, userNickname := none,
              amount := body.m_amount, currency := body.m_curr,
              status := TxStatus.pending, protectionCode := body.m_desc,
              commentCode := none }, ?_, rfl, rfl, rfl, rfl, rfl, rfl⟩
    unfold payeerWebhook
    rw [if_pos h]
  · intro h
    unfold payeerWebhook
    rw [if_neg h]
  · intro body' h
    unfold payeerWebhook
    by_cases hs : body.m_status = "success"
    · rw [if_pos hs, if_pos (h ▸ hs)]
    · rw [if_neg hs, if_neg (h ▸ hs)]

/-- Witness for C10: a success notification is stored even though the store
already holds a payment with the same order id `B`, and a failure
notification is rejected with nothing stored. -/
theorem payeer_webhook_behavior_witness :
    (("success" : String) = "success" ∧
      ∃ newP : Payment,
        payeerWebhook 3 [paymentB]
            { m_orderid := "B", m_amount := 5, m_curr := "RUB", m_desc := "d",
              m_status := "success" } =
          (200, [paymentB] ++ [newP], some "B") ∧
        newP.status = TxStatus.pending ∧ newP.payeerId = some "B" ∧
        newP.amount = 5 ∧ newP.currency = "RUB" ∧
        newP.protectionCode = "d" ∧ newP.commentCode = none) ∧
    (("fail" : String) ≠ "success" ∧
      payeerWebhook 3 [paymentB]
          { m_orderid := "B", m_amount := 5, m_curr := "RUB", m_desc := "d",
            m_status := "fail" } =
        (400, [paymentB], none)) :=
  ⟨⟨rfl,
    (payeer_webhook_behavior 3 [paymentB]
      { m_orderid := "B", m_amount := 5, m_curr := "RUB", m_desc := "d",
        m_status := "success" }).1 rfl⟩,
   ⟨by decide,
    (payeer_webhook_behavior 3 [paymentB]
      { m_orderid := "B", m_amount := 5, m_curr := "RUB", m_desc := "d",
        m_status := "fail" }).2.1 (by decide)⟩⟩

end Choizze
